import Mathlib

/-!
A shallow embedding of the AMPLIFY training control loop
(`src/amplify/trainer/trainer.py`) and proofs about it.

The embedding models the integer counters of the `Metrics` object, the
per-batch control flow of the training loop (gradient accumulation,
synchronized steps, evaluation / logging / checkpointing cadence, the
step-budget break, and the epoch bookkeeping), the resume-time
checkpoint-index resolution over a model of the checkpoint directory, the
`evaluate` function's model-mode side effect, and the SIGTERM handler's
exit status.  Floating-point loss accumulators are modelled as abstract
integers where they are carried at all (no proved property depends on
their arithmetic).  Side effects that the loop performs on external
collaborators (backward passes, optimizer / scheduler steps, gradient
clipping, evaluator invocations, metric flushes, checkpoint saves) are
recorded as an explicit event trace.
-/

namespace AMPLIFY

/-- Configuration fields consumed by the training loop: `cfg.trainer.max_steps`,
`cfg.trainer.gradient_accumulation_steps`, `cfg.trainer.eval_steps`,
`cfg.wandb.log_interval`, `cfg.trainer.save_steps`,
`cfg.trainer.gradient_clipping` (optional, may be null), and
`cfg.trainer.resume`.  `config_schema.validate` (line 60) validates the
configuration before the loop starts; interval fields are positive there. -/
structure TrainerConfig where
  max_steps : Nat
  gradient_accumulation_steps : Nat
  eval_steps : Nat
  log_interval : Nat
  save_steps : Nat
  gradient_clipping : Option Int
  resume : Bool
deriving Repr, DecidableEq

/-- The integer-valued quantities one training batch contributes to the
metrics (lines 209-213 / 226-230): `x.shape[0]`, the number of non-padding
tokens, the number of scored (label not -100) tokens, and the number of
correct predictions.  The floating train-loss contribution is not carried:
no claim depends on it. -/
structure Batch where
  numSamples : Nat
  numTokens : Nat
  numPred : Nat
  numCorrect : Nat
deriving Repr, DecidableEq

/-- The integer counters of the `Metrics` object (line 118) that the
training loop mutates.  The floating-point accumulator
`local_sum_train_loss` is omitted (no claim depends on it). -/
structure Metrics where
  num_steps : Nat
  num_epochs : Nat
  num_batches_in_epoch : Nat
  local_num_batches : Nat
  local_num_samples : Nat
  local_num_tokens : Nat
  local_num_train_pred : Nat
  local_num_train_correct : Nat
deriving Repr, DecidableEq

/-- Fresh metrics, all counters zero, as constructed at line 118. -/
def Metrics.init : Metrics := ⟨0, 0, 0, 0, 0, 0, 0, 0⟩

/-- Observable actions the loop performs on its collaborators.
`evalCall` records one `evaluate(...)` invocation (lines 238-243), one per
entry of `eval_dataloaders`; dataset keys are modelled as opaque numeric
identifiers (the Python code uses unique dictionary keys). -/
inductive Event where
  | backward
  | evalCall (dataset : Nat)
  | logMetrics
  | clipGrad
  | optimizerStep
  | schedulerStep
  | zeroGrad
  | saveState
deriving Repr, DecidableEq

/-- The metric updates performed on every consumed batch (lines 208-213
in the accumulation branch, identically lines 225-230 in the synchronized
branch). -/
def updateBatchMetrics (m : Metrics) (b : Batch) : Metrics :=
  { m with
      num_batches_in_epoch := m.num_batches_in_epoch + 1
      local_num_samples := m.local_num_samples + b.numSamples
      local_num_tokens := m.local_num_tokens + b.numTokens
      local_num_train_pred := m.local_num_train_pred + b.numPred
      local_num_train_correct := m.local_num_train_correct + b.numCorrect }

/-- Line 264: `cfg.trainer.gradient_clipping is not None and
cfg.trainer.gradient_clipping > 0`. -/
def clipEnabled (cfg : TrainerConfig) : Bool :=
  match cfg.gradient_clipping with
  | none => false
  | some c => decide (0 < c)

/-- Result of processing one batch of the inner loop: the updated metrics,
the trace of external actions, and whether the `break` at line 279 fired. -/
structure StepResult where
  metrics : Metrics
  events : List Event
  brk : Bool
deriving Repr, DecidableEq

/-- One iteration of the inner per-batch loop (lines 195-279).
`local_num_batches` is incremented first (line 197).  When it is not a
multiple of `gradient_accumulation_steps`, the batch is processed under
`accelerator.no_sync` (lines 201-216): metrics are updated and a backward
pass runs, nothing else.  Otherwise (lines 217-279) the loop updates the
metrics, increments `num_steps`, runs the synchronized backward pass, then
in source order: evaluation when `num_steps` is a multiple of
`eval_steps`, metric logging when it is a multiple of `log_interval`,
gradient clipping when a positive threshold is configured, the optimizer
step, the scheduler step, the gradient reset, the checkpoint save when
`num_steps` is a multiple of `save_steps`, and finally the break test
`num_steps >= max_steps`. -/
def processBatch (cfg : TrainerConfig) (evalSets : List Nat) (m : Metrics) (b : Batch) :
    StepResult :=
  let m1 := { m with local_num_batches := m.local_num_batches + 1 }
  if m1.local_num_batches % cfg.gradient_accumulation_steps ≠ 0 then
    ⟨updateBatchMetrics m1 b, [Event.backward], false⟩
  else
    let m2 := { updateBatchMetrics m1 b with num_steps := m1.num_steps + 1 }
    ⟨m2,
      [Event.backward]
        ++ (if m2.num_steps % cfg.eval_steps = 0 then evalSets.map Event.evalCall else [])
        ++ (if m2.num_steps % cfg.log_interval = 0 then [Event.logMetrics] else [])
        ++ (if clipEnabled cfg then [Event.clipGrad] else [])
        ++ [Event.optimizerStep, Event.schedulerStep, Event.zeroGrad]
        ++ (if m2.num_steps % cfg.save_steps = 0 then [Event.saveState] else []),
      decide (cfg.max_steps ≤ m2.num_steps)⟩

/-- The inner `for` loop over one epoch's dataloader (lines 195-279):
processes batches in order until the list is exhausted or the break fires. -/
def runEpoch (cfg : TrainerConfig) (evalSets : List Nat) : Metrics → List Batch → StepResult
  | m, [] => ⟨m, [], false⟩
  | m, b :: bs =>
    let r := processBatch cfg evalSets m b
    if r.brk then ⟨r.metrics, r.events, true⟩
    else
      let rest := runEpoch cfg evalSets r.metrics bs
      ⟨rest.metrics, r.events ++ rest.events, rest.brk⟩

/-- The statements that follow the inner loop (lines 282-283): increment
`num_epochs` and reset `num_batches_in_epoch`.  In Python these lines run
after every exit of the inner `for` loop — both after a full pass and
after the mid-epoch `break` at line 279. -/
def epochEnd (m : Metrics) : Metrics :=
  { m with num_epochs := m.num_epochs + 1, num_batches_in_epoch := 0 }

/-- Result of the outer `while` loop (lines 191-286): final metrics, the
concatenated event trace, and the data source each executed epoch
iterated over. -/
structure LoopResult where
  metrics : Metrics
  events : List Event
  sources : List (List Batch)
deriving Repr, DecidableEq

/-- The outer `while cfg.trainer.max_steps > metrics["num_steps"]` loop
(lines 191-286).  `skipped` models `skipped_train_dataloader`: the first
epoch uses it when present (line 193) and it is cleared after the epoch
(line 286).  The loop need not terminate for every input (an empty
dataloader never increases `num_steps`), so the embedding carries fuel:
`none` means the fuel ran out before the `while` condition failed. -/
def runLoop (cfg : TrainerConfig) (evalSets : List Nat) (data : List Batch) :
    Nat → Option (List Batch) → Metrics → Option LoopResult
  | 0, _, _ => none
  | fuel + 1, skipped, m =>
    if cfg.max_steps ≤ m.num_steps then some ⟨m, [], []⟩
    else
      let src := skipped.getD data
      let r := runEpoch cfg evalSets m src
      match runLoop cfg evalSets data fuel none (epochEnd r.metrics) with
      | none => none
      | some res => some ⟨res.metrics, r.events ++ res.events, src :: res.sources⟩

/-- `accelerator.skip_first_batches(dataloader, n)` (line 170): the
dataloader's batch sequence with its first `n` batches omitted. -/
def skip_first_batches (dataloader : List Batch) (n : Nat) : List Batch :=
  dataloader.drop n

/-- Lines 167-170: `skipped_train_dataloader` is built exactly when
`cfg.trainer.resume` is set and the checkpoint directory exists, using the
restored `metrics["num_batches_in_epoch"]` as the skip count. -/
def resumeSkippedDataloader (cfg : TrainerConfig) (chkExists : Bool)
    (train_dataloader : List Batch) (metrics : Metrics) : Option (List Batch) :=
  if cfg.resume && chkExists then
    some (skip_first_batches train_dataloader metrics.num_batches_in_epoch)
  else none

/-- The checkpoint root directory: `none` when the directory does not
exist, otherwise the list of `checkpoint_<index>` subdirectories as pairs
of index and number of entries inside (accelerate's automatic checkpoint
naming produces exactly such names, and the regular expression at line 70
extracts the trailing integer). -/
abbrev ChkDir := Option (List (Nat × Nat))

/-- `os.listdir(os.path.join(chk_dir, "checkpoint_<i>"))` length lookup:
`none` models a missing directory (where `os.listdir` raises
FileNotFoundError). -/
def lookupIdx : List (Nat × Nat) → Nat → Option Nat
  | [], _ => none
  | p :: rest, i => if p.1 = i then some p.2 else lookupIdx rest i

/-- `shutil.rmtree` of `checkpoint_<i>` (line 73). -/
def removeIdx : List (Nat × Nat) → Nat → List (Nat × Nat)
  | [], _ => []
  | p :: rest, i => if p.1 = i then removeIdx rest i else p :: removeIdx rest i

/-- Line 70: the maximum index extracted from the subdirectory names. -/
def maxIdx (dirs : List (Nat × Nat)) : Nat :=
  dirs.foldr (fun p acc => max p.1 acc) 0

/-- The exceptions the resolution code can raise: `ValueError` from
`max()` over an empty sequence (line 70) and `FileNotFoundError` from
`os.listdir` on a directory that does not exist (line 72). -/
inductive ResolveError where
  | valueError
  | fileNotFound
deriving Repr, DecidableEq

/-- The `while` loop of lines 72-74, started at index `it`: while
`checkpoint_<it>` is empty, delete it and decrement `it`.  `os.listdir`
on a missing `checkpoint_<it>` raises FileNotFoundError; after deleting
an empty `checkpoint_0` the code probes `checkpoint_-1`, which never
exists, so that path also raises.  On success, returns the resolved index
together with the surviving directory entries. -/
def resolveFrom : List (Nat × Nat) → Nat → Except ResolveError (Nat × List (Nat × Nat))
  | dirs, 0 =>
    match lookupIdx dirs 0 with
    | none => Except.error ResolveError.fileNotFound
    | some n =>
      if n = 0 then Except.error ResolveError.fileNotFound
      else Except.ok (0, dirs)
  | dirs, it + 1 =>
    match lookupIdx dirs (it + 1) with
    | none => Except.error ResolveError.fileNotFound
    | some n =>
      if n = 0 then resolveFrom (removeIdx dirs (it + 1)) it
      else Except.ok (it + 1, dirs)

/-- Lines 70-74: resolve the active checkpoint index of a checkpoint root
that exists.  `max()` over an empty `os.listdir` raises ValueError. -/
def resolveLatest (dirs : List (Nat × Nat)) : Except ResolveError (Nat × List (Nat × Nat)) :=
  if dirs.isEmpty then Except.error ResolveError.valueError
  else resolveFrom dirs (maxIdx dirs)

/-- The number of checkpoints present under the checkpoint root (zero when
the root itself does not exist). -/
def checkpointCount (chk : ChkDir) : Nat :=
  (chk.getD []).length

/-- Lines 63-74: startup handling of the checkpoint directory.  When
`cfg.trainer.resume` is false, `shutil.rmtree(chk_dir, ignore_errors=True)`
removes the whole tree whether or not it exists and whatever it contains,
and `it` stays 0.  When resume is set and the directory exists, the index
is resolved (and empty trailing checkpoints are deleted); an exception
from resolution propagates and aborts startup. -/
def startupChkDir (cfg : TrainerConfig) (chk : ChkDir) : Except ResolveError (Nat × ChkDir) :=
  if cfg.resume = false then Except.ok (0, none)
  else
    match chk with
    | none => Except.ok (0, none)
    | some dirs =>
      match resolveLatest dirs with
      | Except.error e => Except.error e
      | Except.ok (it, dirs1) => Except.ok (it, some dirs1)

/-- The slice of the model state `evaluate` interacts with: the
training-mode flag toggled by `model.eval()` / `model.train()`. -/
structure EvalModel where
  training : Bool
deriving Repr, DecidableEq

/-- One batch of a validation dataloader as consumed by `evaluate`
(lines 44-49).  `raises` marks a batch whose processing raises an
exception at runtime.  `lossContrib` stands for
`val_loss.item() * torch.sum(y != -100).item()`, carried abstractly. -/
structure EvalBatch where
  raises : Bool
  numPred : Nat
  lossContrib : Int
  numCorrect : Nat
deriving Repr, DecidableEq

/-- The accumulation loop of lines 44-49, with the three accumulators
`num_val_pred`, `sum_val_loss`, `num_val_correct` initialised at line 42.
A raising batch aborts the loop with the exception. -/
def evalLoop : List EvalBatch → Nat → Int → Nat → Except Unit (Nat × Int × Nat)
  | [], p, l, c => Except.ok (p, l, c)
  | b :: bs, p, l, c =>
    if b.raises then Except.error ()
    else evalLoop bs (p + b.numPred) (l + b.lossContrib) (c + b.numCorrect)

/-- `evaluate` (lines 24-51): `model.eval()` at line 41, the accumulation
loop under `torch.no_grad()`, then `model.train()` at line 50.  The
function returns the call's outcome together with the model's mode flag
after the call.  There is no try/finally around the loop, so an exception
raised while evaluating a batch propagates out of `evaluate` before
line 50 runs: on that path the model is left with `training = false`. -/
def evaluate (model : EvalModel) (dataloader : List EvalBatch) :
    Except Unit (Nat × Int × Nat) × EvalModel :=
  let m1 : EvalModel := { model with training := false }
  match evalLoop dataloader 0 0 0 with
  | Except.error e => (Except.error e, m1)
  | Except.ok r => (Except.ok r, { m1 with training := true })

/-- The SIGTERM handler (lines 173-178) as a function from the outcomes of
`accelerator.save_state()` and `accelerator.wait_for_everyone()` to the
process exit status.  `trainer.py` installs no exception handler, so an
exception from either call propagates out of the signal handler and
terminates the Python process with the interpreter's non-zero status
(modelled as 1); `sys.exit(0)` at line 178 is reached only after both
calls return. -/
def handlerExitCode (saveOutcome : Except Unit Unit) (barrierOutcome : Except Unit Unit) : Nat :=
  match saveOutcome with
  | Except.error _ => 1
  | Except.ok _ =>
    match barrierOutcome with
    | Except.error _ => 1
    | Except.ok _ => 0

/-- Events that read the model or its gradients for reporting: evaluator
invocations and metric logging. -/
def isEvalOrLog : Event → Bool
  | Event.evalCall _ => true
  | Event.logMetrics => true
  | _ => false

/-- Events that alter the gradients or parameters of the current step:
gradient clipping and the optimizer step. -/
def isUpdate : Event → Bool
  | Event.clipGrad => true
  | Event.optimizerStep => true
  | _ => false

/-- `epochEnd` leaves the global step counter unchanged. -/
theorem epochEnd_num_steps (m : Metrics) : (epochEnd m).num_steps = m.num_steps := rfl

/-- `epochEnd` leaves the cumulative batch counter unchanged. -/
theorem epochEnd_local_num_batches (m : Metrics) :
    (epochEnd m).local_num_batches = m.local_num_batches := rfl

/-- Membership in a conditional list implies membership in its branch. -/
theorem mem_of_mem_ite_nil {c : Prop} [Decidable c] {l : List Event} {e : Event}
    (h : e ∈ if c then l else []) : e ∈ l := by
  split at h
  · exact h
  · exact absurd h (List.not_mem_nil e)

/-- A batch never changes the epoch counter. -/
theorem processBatch_num_epochs (cfg : TrainerConfig) (ds : List Nat) (m : Metrics) (b : Batch) :
    (processBatch cfg ds m b).metrics.num_epochs = m.num_epochs := by
  by_cases h : (m.local_num_batches + 1) % cfg.gradient_accumulation_steps = 0 <;>
    simp [processBatch, updateBatchMetrics, h]

/-- If the break fired on a batch, that batch was a synchronized step:
the batch counter divides evenly and the budget is reached. -/
theorem processBatch_brk_true (cfg : TrainerConfig) (ds : List Nat) (m : Metrics) (b : Batch)
    (h : (processBatch cfg ds m b).brk = true) :
    (processBatch cfg ds m b).metrics.local_num_batches % cfg.gradient_accumulation_steps = 0 ∧
    cfg.max_steps ≤ (processBatch cfg ds m b).metrics.num_steps := by
  by_cases hs : (m.local_num_batches + 1) % cfg.gradient_accumulation_steps = 0
  · simp [processBatch, updateBatchMetrics, hs] at h ⊢
    exact h
  · simp [processBatch, updateBatchMetrics, hs] at h

/-- If the break did not fire, the step counter stays below the budget. -/
theorem processBatch_brk_false (cfg : TrainerConfig) (ds : List Nat) (m : Metrics) (b : Batch)
    (h0 : m.num_steps < cfg.max_steps)
    (h : (processBatch cfg ds m b).brk = false) :
    (processBatch cfg ds m b).metrics.num_steps < cfg.max_steps := by
  by_cases hs : (m.local_num_batches + 1) % cfg.gradient_accumulation_steps = 0
  · simp [processBatch, updateBatchMetrics, hs] at h ⊢
    omega
  · simp [processBatch, updateBatchMetrics, hs]
    exact h0

/-- An epoch never changes the epoch counter (only `epochEnd` does). -/
theorem runEpoch_num_epochs (cfg : TrainerConfig) (ds : List Nat) :
    ∀ (bs : List Batch) (m : Metrics),
      (runEpoch cfg ds m bs).metrics.num_epochs = m.num_epochs := by
  intro bs
  induction bs with
  | nil => intro m; rfl
  | cons b bs ih =>
    intro m
    by_cases hb : (processBatch cfg ds m b).brk
    · simp [runEpoch, hb, processBatch_num_epochs]
    · simp [runEpoch, hb, ih, processBatch_num_epochs]

/-- If the inner loop exited through the break, the cumulative batch
counter divides the accumulation width and the budget is reached. -/
theorem runEpoch_brk_true (cfg : TrainerConfig) (ds : List Nat) :
    ∀ (bs : List Batch) (m : Metrics),
      (runEpoch cfg ds m bs).brk = true →
      (runEpoch cfg ds m bs).metrics.local_num_batches % cfg.gradient_accumulation_steps = 0 ∧
      cfg.max_steps ≤ (runEpoch cfg ds m bs).metrics.num_steps := by
  intro bs
  induction bs with
  | nil => intro m h; exact absurd h (by simp [runEpoch])
  | cons b bs ih =>
    intro m h
    by_cases hb : (processBatch cfg ds m b).brk
    · simpa [runEpoch, hb] using processBatch_brk_true cfg ds m b hb
    · simp only [runEpoch, hb, if_false] at h ⊢
      exact ih (processBatch cfg ds m b).metrics h

/-- If the inner loop exited without the break and entered below the
budget, the step counter is still below the budget. -/
theorem runEpoch_brk_false (cfg : TrainerConfig) (ds : List Nat) :
    ∀ (bs : List Batch) (m : Metrics),
      m.num_steps < cfg.max_steps →
      (runEpoch cfg ds m bs).brk = false →
      (runEpoch cfg ds m bs).metrics.num_steps < cfg.max_steps := by
  intro bs
  induction bs with
  | nil => intro m h0 _; exact h0
  | cons b bs ih =>
    intro m h0 h
    by_cases hb : (processBatch cfg ds m b).brk
    · simp [runEpoch, hb] at h
    · simp only [runEpoch, hb, if_false] at h ⊢
      exact ih (processBatch cfg ds m b).metrics (processBatch_brk_false cfg ds m b h0 (by simpa using hb)) h

/-- When the `while` condition already fails on entry, the loop returns
its input unchanged with an empty trace. -/
theorem runLoop_of_done (cfg : TrainerConfig) (ds : List Nat) (data : List Batch)
    (fuel : Nat) (sk : Option (List Batch)) (m : Metrics) (res : LoopResult)
    (hrun : runLoop cfg ds data fuel sk m = some res)
    (h : cfg.max_steps ≤ m.num_steps) : res = ⟨m, [], []⟩ := by
  cases fuel with
  | zero => simp [runLoop] at hrun
  | succ f =>
    rw [runLoop, if_pos h] at hrun
    exact (Option.some.injEq _ _ ▸ hrun).symm

/-- A loop run that executed no epoch returns its input metrics. -/
theorem runLoop_sources_nil (cfg : TrainerConfig) (ds : List Nat) (data : List Batch)
    (fuel : Nat) (sk : Option (List Batch)) (m : Metrics) (res : LoopResult)
    (hrun : runLoop cfg ds data fuel sk m = some res)
    (h : res.sources = []) : res.metrics = m := by
  cases fuel with
  | zero => simp [runLoop] at hrun
  | succ f =>
    rw [runLoop] at hrun
    by_cases hd : cfg.max_steps ≤ m.num_steps
    · rw [if_pos hd] at hrun
      cases hrun
      rfl
    · rw [if_neg hd] at hrun
      dsimp only at hrun
      split at hrun
      · exact absurd hrun (by simp)
      · cases hrun
        simp at h

/-- Whenever the loop returns, the step budget has been met. -/
theorem runLoop_steps_ge (cfg : TrainerConfig) (ds : List Nat) (data : List Batch) :
    ∀ (fuel : Nat) (sk : Option (List Batch)) (m : Metrics) (res : LoopResult),
      runLoop cfg ds data fuel sk m = some res →
      cfg.max_steps ≤ res.metrics.num_steps := by
  intro fuel
  induction fuel with
  | zero => intro sk m res hrun; simp [runLoop] at hrun
  | succ f ih =>
    intro sk m res hrun
    rw [runLoop] at hrun
    by_cases hd : cfg.max_steps ≤ m.num_steps
    · rw [if_pos hd] at hrun
      cases hrun
      exact hd
    · rw [if_neg hd] at hrun
      dsimp only at hrun
      split at hrun
      · exact absurd hrun (by simp)
      · rename_i res1 hrec
        cases hrun
        exact ih none _ res1 hrec

/-- With no skip adapter installed, every executed epoch iterates the
unmodified training dataloader. -/
theorem runLoop_sources_all_data (cfg : TrainerConfig) (ds : List Nat) (data : List Batch) :
    ∀ (fuel : Nat) (m : Metrics) (res : LoopResult),
      runLoop cfg ds data fuel none m = some res →
      ∀ s ∈ res.sources, s = data := by
  intro fuel
  induction fuel with
  | zero => intro m res hrun; simp [runLoop] at hrun
  | succ f ih =>
    intro m res hrun
    rw [runLoop] at hrun
    by_cases hd : cfg.max_steps ≤ m.num_steps
    · rw [if_pos hd] at hrun
      cases hrun
      intro s hs
      exact absurd hs (List.not_mem_nil s)
    · rw [if_neg hd] at hrun
      dsimp only at hrun
      split at hrun
      · exact absurd hrun (by simp)
      · rename_i res1 hrec
        cases hrun
        intro s hs
        rcases List.mem_cons.1 hs with h | h
        · simpa using h
        · exact ih _ res1 hrec s h

/-- Claim C9: the step-budget exit condition is checked only immediately
after a synchronized step, so whenever the training loop terminates
because the budget was reached (having entered with the budget not yet
met), the cumulative batch counter `local_num_batches` is an exact
multiple of the accumulation width: the loop never stops in the middle of
an accumulation window. -/
theorem budget_exit_on_window_boundary (cfg : TrainerConfig) (ds : List Nat) (data : List Batch) :
    ∀ (fuel : Nat) (sk : Option (List Batch)) (m : Metrics) (res : LoopResult),
      m.num_steps < cfg.max_steps →
      runLoop cfg ds data fuel sk m = some res →
      cfg.max_steps ≤ res.metrics.num_steps ∧
      res.metrics.local_num_batches % cfg.gradient_accumulation_steps = 0 := by
  intro fuel
  induction fuel with
  | zero => intro sk m res h0 hrun; simp [runLoop] at hrun
  | succ f ih =>
    intro sk m res h0 hrun
    rw [runLoop, if_neg (Nat.not_le.mpr h0)] at hrun
    dsimp only at hrun
    split at hrun
    · exact absurd hrun (by simp)
    · rename_i res1 hrec
      cases hrun
      by_cases hb : (runEpoch cfg ds m (sk.getD data)).brk
      · obtain ⟨hw, hge⟩ := runEpoch_brk_true cfg ds (sk.getD data) m hb
        have hdone : cfg.max_steps ≤ (epochEnd (runEpoch cfg ds m (sk.getD data)).metrics).num_steps := by
          rw [epochEnd_num_steps]; exact hge
        have h1 := runLoop_of_done cfg ds data f none _ res1 hrec hdone
        rw [h1]
        exact ⟨hdone, by rw [epochEnd_local_num_batches]; exact hw⟩
      · have hlt := runEpoch_brk_false cfg ds (sk.getD data) m h0 (by simpa using hb)
        exact ih none _ res1 (by rw [epochEnd_num_steps]; exact hlt) hrec

/-- Claim C5 (amended): `num_epochs` is incremented and
`num_batches_in_epoch` is reset to zero after every execution of the
inner batch loop — both after a full pass over the data source and after
a mid-epoch exit through the step-budget break — so `num_epochs` counts
inner-loop executions and `num_batches_in_epoch` is zero at loop exit
whenever at least one epoch ran. -/
theorem epoch_counter_per_inner_exit (cfg : TrainerConfig) (ds : List Nat) (data : List Batch) :
    ∀ (fuel : Nat) (sk : Option (List Batch)) (m : Metrics) (res : LoopResult),
      runLoop cfg ds data fuel sk m = some res →
      res.metrics.num_epochs = m.num_epochs + res.sources.length ∧
      (res.sources ≠ [] → res.metrics.num_batches_in_epoch = 0) := by
  intro fuel
  induction fuel with
  | zero => intro sk m res hrun; simp [runLoop] at hrun
  | succ f ih =>
    intro sk m res hrun
    rw [runLoop] at hrun
    by_cases hd : cfg.max_steps ≤ m.num_steps
    · rw [if_pos hd] at hrun
      cases hrun
      simp
    · rw [if_neg hd] at hrun
      dsimp only at hrun
      split at hrun
      · exact absurd hrun (by simp)
      · rename_i res1 hrec
        cases hrun
        have h1 := ih none _ res1 hrec
        have h2 : (epochEnd (runEpoch cfg ds m (sk.getD data)).metrics).num_epochs
            = m.num_epochs + 1 := by
          simp [epochEnd, runEpoch_num_epochs]
        constructor
        · have h11 := h1.1
          simp only [List.length_cons]
          omega
        · intro _
          cases hs : res1.sources with
          | nil =>
            have h3 := runLoop_sources_nil cfg ds data f none _ res1 hrec hs
            show res1.metrics.num_batches_in_epoch = 0
            rw [h3]
            rfl
          | cons s ss => exact h1.2 (by simp [hs])

/-- Claim C4: when resume is enabled and the checkpoint directory exists,
the first epoch's data source is the skip-ahead adapter over the training
dataloader with skip count equal to the restored
`num_batches_in_epoch`, so the first post-resume epoch iterates exactly
the batches after the first `B`; every subsequently executed epoch
iterates the unmodified training dataloader. -/
theorem resume_skips_first_epoch (cfg : TrainerConfig) (chkExists : Bool) (ds : List Nat)
    (data : List Batch) (mR : Metrics) (fuel : Nat) (res : LoopResult)
    (hres : cfg.resume = true) (hchk : chkExists = true)
    (hrun : runLoop cfg ds data fuel (resumeSkippedDataloader cfg chkExists data mR) mR
      = some res) :
    resumeSkippedDataloader cfg chkExists data mR =
      some (data.drop mR.num_batches_in_epoch) ∧
    (mR.num_steps < cfg.max_steps →
      res.sources.head? = some (data.drop mR.num_batches_in_epoch)) ∧
    (∀ s ∈ res.sources.tail, s = data) := by
  have hsk : resumeSkippedDataloader cfg chkExists data mR =
      some (data.drop mR.num_batches_in_epoch) := by
    simp [resumeSkippedDataloader, hres, hchk, skip_first_batches]
  refine ⟨hsk, ?_, ?_⟩ <;>
  · cases fuel with
    | zero => simp [runLoop] at hrun
    | succ f =>
      rw [runLoop] at hrun
      by_cases hd : cfg.max_steps ≤ mR.num_steps
      · rw [if_pos hd] at hrun
        cases hrun
        first
        | exact fun hlt => absurd hd (Nat.not_le.mpr hlt)
        | intro s hs; exact absurd hs (List.not_mem_nil s)
      · rw [if_neg hd, hsk] at hrun
        dsimp only at hrun
        split at hrun
        · exact absurd hrun (by simp)
        · rename_i res1 hrec
          cases hrun
          first
          | exact fun _ => rfl
          | exact fun s hs => runLoop_sources_all_data cfg ds data f _ res1 hrec s hs

/-- Claim C1: for every configured accumulation width `W ≥ 1`, each
consumed batch increments the cumulative batch counter by exactly one,
and the global step counter `num_steps` is incremented — together with
the optimizer step, the scheduler step and the gradient reset — exactly
at the batches whose cumulative batch counter is an exact multiple of
`W`, and at no other batch (where only a backward pass happens). -/
theorem step_increment_per_accumulation_window (cfg : TrainerConfig) (ds : List Nat)
    (m : Metrics) (b : Batch) (hW : 1 ≤ cfg.gradient_accumulation_steps) :
    (processBatch cfg ds m b).metrics.local_num_batches = m.local_num_batches + 1 ∧
    ((m.local_num_batches + 1) % cfg.gradient_accumulation_steps = 0 →
      (processBatch cfg ds m b).metrics.num_steps = m.num_steps + 1 ∧
      Event.optimizerStep ∈ (processBatch cfg ds m b).events ∧
      Event.schedulerStep ∈ (processBatch cfg ds m b).events ∧
      Event.zeroGrad ∈ (processBatch cfg ds m b).events) ∧
    ((m.local_num_batches + 1) % cfg.gradient_accumulation_steps ≠ 0 →
      (processBatch cfg ds m b).metrics.num_steps = m.num_steps ∧
      (processBatch cfg ds m b).events = [Event.backward]) := by
  by_cases h : (m.local_num_batches + 1) % cfg.gradient_accumulation_steps = 0 <;>
    simp [processBatch, updateBatchMetrics, h]

/-- The occurrences of an event in a conditional list. -/
theorem count_ite_nil {c : Prop} [Decidable c] (l : List Event) (e : Event) :
    (if c then l else []).count e = if c then l.count e else 0 := by
  split <;> simp

/-- Claim C6: for a positive evaluation interval `E` and distinct
held-out dataset keys, processing a batch invokes the Evaluator exactly
once per dataset when the batch is a synchronized step whose incremented
global step counter is an exact multiple of `E`, and never otherwise (in
particular never on a non-synchronized accumulation batch). -/
theorem evaluator_cadence (cfg : TrainerConfig) (ds : List Nat) (m : Metrics) (b : Batch)
    (k : Nat) (hE : 1 ≤ cfg.eval_steps) (hnd : ds.Nodup) (hk : k ∈ ds) :
    ((processBatch cfg ds m b).events).count (Event.evalCall k) =
      if (m.local_num_batches + 1) % cfg.gradient_accumulation_steps = 0 ∧
          (m.num_steps + 1) % cfg.eval_steps = 0
      then 1 else 0 := by
  have hmap : (ds.map Event.evalCall).count (Event.evalCall k) = 1 := by
    rw [List.count_map_of_injective ds Event.evalCall (fun a b hab => by injection hab) k]
    exact List.count_eq_one_of_mem hnd hk
  by_cases hs : (m.local_num_batches + 1) % cfg.gradient_accumulation_steps = 0
  · by_cases he : (m.num_steps + 1) % cfg.eval_steps = 0 <;>
      simp [processBatch, updateBatchMetrics, hs, he, List.count_append, count_ite_nil,
        List.count_cons, hmap]
  · simp [processBatch, updateBatchMetrics, hs]

/-- Claim C10: within the processing of any single batch, every Evaluator
invocation and every metric-logging flush occurs before the gradient
clipping and before that step's optimizer update: the event trace splits
into a prefix free of parameter-update events (holding all evaluation and
logging) followed by a suffix free of evaluation and logging events
(holding the clipping and the optimizer step).  The Evaluator therefore
scores the parameters produced by the previous synchronized step, and the
logged gradient norm is the unclipped norm. -/
theorem eval_and_log_precede_update (cfg : TrainerConfig) (ds : List Nat) (m : Metrics)
    (b : Batch) :
    ∃ pre post,
      (processBatch cfg ds m b).events = pre ++ post ∧
      (∀ e ∈ pre, isUpdate e = false) ∧
      (∀ e ∈ post, isEvalOrLog e = false) := by
  by_cases hs : (m.local_num_batches + 1) % cfg.gradient_accumulation_steps = 0
  · refine ⟨[Event.backward]
        ++ (if (m.num_steps + 1) % cfg.eval_steps = 0 then ds.map Event.evalCall else [])
        ++ (if (m.num_steps + 1) % cfg.log_interval = 0 then [Event.logMetrics] else []),
      (if clipEnabled cfg then [Event.clipGrad] else [])
        ++ ([Event.optimizerStep, Event.schedulerStep, Event.zeroGrad]
          ++ (if (m.num_steps + 1) % cfg.save_steps = 0 then [Event.saveState] else [])),
      ?_, ?_, ?_⟩
    · simp [processBatch, updateBatchMetrics, hs, List.append_assoc]
    · intro e he
      rcases List.mem_append.1 he with he | he
      · rcases List.mem_append.1 he with he | he
        · rw [List.mem_singleton.1 he]
          rfl
        · rcases List.mem_map.1 (mem_of_mem_ite_nil he) with ⟨x, _, hx⟩
          rw [← hx]
          rfl
      · rw [List.mem_singleton.1 (mem_of_mem_ite_nil he)]
        rfl
    · intro e he
      rcases List.mem_append.1 he with he | he
      · rw [List.mem_singleton.1 (mem_of_mem_ite_nil he)]
        rfl
      · rcases List.mem_append.1 he with he | he
        · simp only [List.mem_cons, List.not_mem_nil, or_false] at he
          rcases he with rfl | rfl | rfl <;> rfl
        · rw [List.mem_singleton.1 (mem_of_mem_ite_nil he)]
          rfl
  · refine ⟨[Event.backward], [], ?_, ?_, ?_⟩
    · simp [processBatch, updateBatchMetrics, hs]
    · intro e he
      rw [List.mem_singleton.1 he]
      rfl
    · intro e he
      exact absurd he (List.not_mem_nil e)

/-- The accumulation loop of `evaluate` completes when no batch raises. -/
theorem evalLoop_ok_of_no_raise : ∀ (bs : List EvalBatch) (p : Nat) (l : Int) (c : Nat),
    (∀ b ∈ bs, b.raises = false) → ∃ r, evalLoop bs p l c = Except.ok r := by
  intro bs
  induction bs with
  | nil => intro p l c _; exact ⟨(p, l, c), rfl⟩
  | cons b bs ih =>
    intro p l c h
    have hb : b.raises = false := h b (List.mem_cons_self b bs)
    rw [evalLoop, if_neg (by simp [hb])]
    exact ih _ _ _ fun x hx => h x (List.mem_cons_of_mem b hx)

/-- Claim C2 (counterexample): on a model initially in training mode,
evaluating a dataloader whose batch raises leaves the model in
inference mode — the error exit path of `evaluate` does not restore
training mode, contrary to the claim that restoration happens on every
exit path. -/
theorem evaluate_error_path_counterexample :
    (evaluate ⟨true⟩ [⟨true, 0, 0, 0⟩]).2.training = false ∧
    (evaluate ⟨true⟩ [⟨true, 0, 0, 0⟩]).1 = Except.error () := by
  exact ⟨rfl, rfl⟩

/-- Claim C2 (amended): `evaluate` places the model in inference mode for
the duration of the call and restores training mode before the call ends
on the normal exit path, i.e. whenever no batch raises; when evaluating a
batch raises, the error propagates out of `evaluate` and the model is
left in inference (non-training) mode. -/
theorem evaluate_mode_restoration (model : EvalModel) (dataloader : List EvalBatch)
    (h : ∀ b ∈ dataloader, b.raises = false) :
    (evaluate model dataloader).2.training = true ∧
    ∃ r, (evaluate model dataloader).1 = Except.ok r := by
  obtain ⟨r, hr⟩ := evalLoop_ok_of_no_raise dataloader 0 0 0 h
  simp [evaluate, hr]

/-- Looking up an index unaffected by a deletion gives the same answer. -/
theorem lookupIdx_removeIdx (i j : Nat) (h : i ≠ j) :
    ∀ dirs : List (Nat × Nat), lookupIdx (removeIdx dirs j) i = lookupIdx dirs i := by
  intro dirs
  induction dirs with
  | nil => rfl
  | cons p rest ih =>
    by_cases hpj : p.1 = j
    · have hpi : p.1 ≠ i := by omega
      simp [removeIdx, lookupIdx, hpj, hpi, ih, h, Ne.symm h]
    · by_cases hpi : p.1 = i
      · simp [removeIdx, lookupIdx, hpj, hpi, h, Ne.symm h]
      · simp [removeIdx, lookupIdx, hpj, hpi, ih, h, Ne.symm h]

/-- A present index is bounded by the maximum extracted index. -/
theorem lookupIdx_le_maxIdx (k c : Nat) :
    ∀ dirs : List (Nat × Nat), lookupIdx dirs k = some c → k ≤ maxIdx dirs := by
  intro dirs
  induction dirs with
  | nil => intro h; simp [lookupIdx] at h
  | cons p rest ih =>
    intro h
    by_cases hpk : p.1 = k
    · simp only [maxIdx, List.foldr]
      omega
    · have h2 : lookupIdx rest k = some c := by simpa [lookupIdx, hpk] using h
      have h3 := ih h2
      simp only [maxIdx, List.foldr] at h3 ⊢
      omega

/-- The pruning loop of lines 72-74 resolves to the greatest non-empty
index when every index strictly between it and the starting index holds
an empty checkpoint directory. -/
theorem resolveFrom_ok (k c : Nat) (hc : c ≠ 0) :
    ∀ (it : Nat) (dirs : List (Nat × Nat)), k ≤ it →
      lookupIdx dirs k = some c →
      (∀ j, k < j → j ≤ it → lookupIdx dirs j = some 0) →
      (resolveFrom dirs it).map Prod.fst = Except.ok k := by
  intro it
  induction it with
  | zero =>
    intro dirs hk hl _
    interval_cases k
    rw [resolveFrom, hl]
    simp [hc, Except.map]
  | succ it ih =>
    intro dirs hk hl hup
    by_cases hke : k = it + 1
    · subst hke
      rw [resolveFrom, hl]
      simp [hc, Except.map]
    · have hk' : k ≤ it := by omega
      have htop : lookupIdx dirs (it + 1) = some 0 := hup (it + 1) (by omega) (by omega)
      have hstep : resolveFrom dirs (it + 1) = resolveFrom (removeIdx dirs (it + 1)) it := by
        rw [resolveFrom, htop]
        simp
      rw [hstep]
      exact ih (removeIdx dirs (it + 1)) hk'
        (by rw [lookupIdx_removeIdx k (it + 1) (by omega)]; exact hl)
        (fun j h1 h2 => by
          rw [lookupIdx_removeIdx j (it + 1) (by omega)]
          exact hup j h1 (by omega))

/-- Claim C3 (counterexample): a checkpoint root whose only checkpoint,
`checkpoint_1`, is empty.  The pruning loop deletes it, decrements the
index and probes `checkpoint_0`, which does not exist, so `os.listdir`
raises FileNotFoundError: when no non-empty checkpoint remains,
resolution fails with an error instead of terminating without one, as
the claim states. -/
theorem resolve_exhausted_counterexample :
    resolveLatest [(1, 0)] = Except.error ResolveError.fileNotFound := by
  rfl

/-- Claim C3 (amended): for a checkpoint root containing numbered
subdirectories, resolution starts at the maximum extracted index and,
while the current checkpoint is empty, deletes it and decrements the
index; it returns the greatest index holding a non-empty checkpoint
provided every index between it and the maximum is present (and empty).
If instead a probed index is missing — in particular when no non-empty
checkpoint remains — resolution raises a file-not-found error rather
than terminating without error. -/
theorem resolve_latest_recovers (dirs : List (Nat × Nat)) (k c : Nat)
    (hk : lookupIdx dirs k = some c) (hc : c ≠ 0)
    (hup : ∀ j, k < j → j ≤ maxIdx dirs → lookupIdx dirs j = some 0) :
    (resolveLatest dirs).map Prod.fst = Except.ok k := by
  have hne : dirs.isEmpty = false := by
    cases dirs with
    | nil => simp [lookupIdx] at hk
    | cons p rest => rfl
  rw [resolveLatest, hne]
  simp only [Bool.false_eq_true, if_false]
  exact resolveFrom_ok k c hc (maxIdx dirs) dirs (lookupIdx_le_maxIdx k c dirs hk) hk hup

/-- Claim C7: when the resume flag is false at startup, the entire
checkpoint history directory is removed unconditionally — whether or not
it existed and whatever it contained — so a checkpoint-count query
afterward returns zero (and the resolved iteration index stays 0). -/
theorem resume_disabled_clears_checkpoints (cfg : TrainerConfig) (chk : ChkDir)
    (h : cfg.resume = false) :
    startupChkDir cfg chk = Except.ok (0, none) ∧ checkpointCount none = 0 := by
  constructor
  · simp [startupChkDir, h]
  · rfl

/-- Claim C8: during signal-triggered shutdown, the handler's exit status
is zero exactly when both the checkpoint save and the cross-process
barrier completed successfully; in particular a failed save makes the
process exit non-zero (the exception propagates out of the handler and
the interpreter terminates with a failure status, never reaching
`sys.exit(0)`). -/
theorem handler_exit_status (saveOutcome barrierOutcome : Except Unit Unit) :
    handlerExitCode saveOutcome barrierOutcome = 0 ↔
      saveOutcome = Except.ok () ∧ barrierOutcome = Except.ok () := by
  cases saveOutcome with
  | error e => simp [handlerExitCode]
  | ok u =>
    cases barrierOutcome with
    | error e => simp [handlerExitCode]
    | ok v => simp [handlerExitCode]

/-- Claim C5 (counterexample): with `max_steps = 1`, accumulation width 1
and a two-batch dataloader, the run consumes exactly one batch (one
backward event) before the step-budget break exits the inner loop
mid-epoch, yet the final `num_epochs` is 1 and `num_batches_in_epoch`
was reset to 0: the epoch counter is incremented and the per-epoch batch
counter reset although no full pass over the data source took place,
contradicting the claim that this happens only after a full pass. -/
theorem epoch_counter_midepoch_counterexample :
    runLoop ⟨1, 1, 5, 3, 7, none, false⟩ [] [⟨1, 1, 1, 1⟩, ⟨2, 2, 2, 2⟩] 2 none Metrics.init
      = some ⟨⟨1, 1, 0, 1, 1, 1, 1, 1⟩,
          [Event.backward, Event.optimizerStep, Event.schedulerStep, Event.zeroGrad],
          [[⟨1, 1, 1, 1⟩, ⟨2, 2, 2, 2⟩]]⟩ ∧
    [Event.backward, Event.optimizerStep, Event.schedulerStep, Event.zeroGrad].count
        Event.backward = 1 ∧
    ([⟨1, 1, 1, 1⟩, ⟨2, 2, 2, 2⟩] : List Batch).length = 2 := by
  exact ⟨rfl, rfl, rfl⟩

/-- Witness for C1: with accumulation width 2, the very first batch is a
non-synchronized accumulation batch, so the step counter stays 0 and only
a backward pass is traced, while the batch counter becomes 1. -/
theorem step_increment_per_accumulation_window_witness :
    1 ≤ (⟨10, 2, 5, 1, 1000, none, false⟩ : TrainerConfig).gradient_accumulation_steps ∧
    (processBatch ⟨10, 2, 5, 1, 1000, none, false⟩ [7] ⟨0, 0, 0, 0, 0, 0, 0, 0⟩
      ⟨1, 1, 1, 1⟩).metrics.local_num_batches = 1 ∧
    (processBatch ⟨10, 2, 5, 1, 1000, none, false⟩ [7] ⟨0, 0, 0, 0, 0, 0, 0, 0⟩
      ⟨1, 1, 1, 1⟩).metrics.num_steps = 0 ∧
    (processBatch ⟨10, 2, 5, 1, 1000, none, false⟩ [7] ⟨0, 0, 0, 0, 0, 0, 0, 0⟩
      ⟨1, 1, 1, 1⟩).events = [Event.backward] := by
  have h := step_increment_per_accumulation_window ⟨10, 2, 5, 1, 1000, none, false⟩ [7]
    ⟨0, 0, 0, 0, 0, 0, 0, 0⟩ ⟨1, 1, 1, 1⟩ (by decide)
  exact ⟨by decide, h.1, (h.2.2 (by decide)).1, (h.2.2 (by decide)).2⟩

/-- Witness for C2 (amended): a non-raising dataloader, after which the
model is back in training mode. -/
theorem evaluate_mode_restoration_witness :
    EvalBatch.raises ⟨false, 3, 5, 2⟩ = false ∧
    (evaluate ⟨true⟩ [⟨false, 3, 5, 2⟩]).2.training = true := by
  have h := evaluate_mode_restoration ⟨true⟩ [⟨false, 3, 5, 2⟩] (by decide)
  exact ⟨rfl, h.1⟩

/-- Witness for C3 (amended): `checkpoint_3` is empty, `checkpoint_2`
holds 5 entries; resolution deletes the empty top and returns index 2. -/
theorem resolve_latest_recovers_witness :
    lookupIdx [(3, 0), (2, 5), (1, 4)] 2 = some 5 ∧
    (resolveLatest [(3, 0), (2, 5), (1, 4)]).map Prod.fst = Except.ok 2 := by
  have h := resolve_latest_recovers [(3, 0), (2, 5), (1, 4)] 2 5 (by decide) (by decide)
    (fun j h1 h2 => by
      have h2a : j ≤ 3 := by simpa [maxIdx] using h2
      interval_cases j
      decide)
  exact ⟨by decide, h⟩

/-- Witness for C4: resuming with a restored batches-in-epoch count of 1
over a three-batch dataloader; the single executed epoch's source is the
dataloader with its first batch dropped. -/
theorem resume_skips_first_epoch_witness :
    Metrics.num_batches_in_epoch ⟨0, 0, 1, 0, 0, 0, 0, 0⟩ = 1 ∧
    resumeSkippedDataloader ⟨2, 1, 5, 3, 7, none, true⟩ true
        [⟨0, 0, 0, 0⟩, ⟨0, 0, 0, 0⟩, ⟨0, 0, 0, 0⟩] ⟨0, 0, 1, 0, 0, 0, 0, 0⟩
      = some [⟨0, 0, 0, 0⟩, ⟨0, 0, 0, 0⟩] ∧
    ([[⟨0, 0, 0, 0⟩, ⟨0, 0, 0, 0⟩]] : List (List Batch)).head?
      = some [⟨0, 0, 0, 0⟩, ⟨0, 0, 0, 0⟩] := by
  have h := resume_skips_first_epoch ⟨2, 1, 5, 3, 7, none, true⟩ true []
    [⟨0, 0, 0, 0⟩, ⟨0, 0, 0, 0⟩, ⟨0, 0, 0, 0⟩] ⟨0, 0, 1, 0, 0, 0, 0, 0⟩ 3
    ⟨⟨2, 1, 0, 2, 0, 0, 0, 0⟩,
      [Event.backward, Event.optimizerStep, Event.schedulerStep, Event.zeroGrad,
        Event.backward, Event.optimizerStep, Event.schedulerStep, Event.zeroGrad],
      [[⟨0, 0, 0, 0⟩, ⟨0, 0, 0, 0⟩]]⟩ rfl rfl (by decide)
  exact ⟨rfl, h.1, h.2.1 (by decide)⟩

/-- Witness for C5 (amended): a run executing one epoch increments the
epoch counter by exactly one and leaves the batches-in-epoch counter at
zero. -/
theorem epoch_counter_per_inner_exit_witness :
    Metrics.num_epochs ⟨1, 1, 0, 1, 1, 1, 1, 1⟩ = Metrics.init.num_epochs + 1 ∧
    Metrics.num_batches_in_epoch ⟨1, 1, 0, 1, 1, 1, 1, 1⟩ = 0 := by
  have h := epoch_counter_per_inner_exit ⟨1, 1, 5, 3, 7, none, false⟩ []
    [⟨1, 1, 1, 1⟩, ⟨2, 2, 2, 2⟩] 2 none Metrics.init
    ⟨⟨1, 1, 0, 1, 1, 1, 1, 1⟩,
      [Event.backward, Event.optimizerStep, Event.schedulerStep, Event.zeroGrad],
      [[⟨1, 1, 1, 1⟩, ⟨2, 2, 2, 2⟩]]⟩ (by decide)
  exact ⟨h.1, h.2 (by decide)⟩

/-- Witness for C6: with evaluation interval 1 and accumulation width 1,
the first batch is a synchronized step at global step 1, and the single
held-out dataset is evaluated exactly once. -/
theorem evaluator_cadence_witness :
    1 ≤ (⟨10, 1, 1, 3, 7, none, false⟩ : TrainerConfig).eval_steps ∧
    ((processBatch ⟨10, 1, 1, 3, 7, none, false⟩ [4] ⟨0, 0, 0, 0, 0, 0, 0, 0⟩
        ⟨1, 1, 1, 1⟩).events).count (Event.evalCall 4) = 1 := by
  have h := evaluator_cadence ⟨10, 1, 1, 3, 7, none, false⟩ [4] ⟨0, 0, 0, 0, 0, 0, 0, 0⟩
    ⟨1, 1, 1, 1⟩ 4 (by decide) (by decide) (by decide)
  refine ⟨by decide, ?_⟩
  rw [h]
  decide

/-- Witness for C7: resume disabled with an existing, non-empty
checkpoint directory: the directory is gone afterwards. -/
theorem resume_disabled_clears_checkpoints_witness :
    (⟨10, 2, 5, 1, 1000, none, false⟩ : TrainerConfig).resume = false ∧
    startupChkDir ⟨10, 2, 5, 1, 1000, none, false⟩ (some [(1, 3), (2, 0)])
      = Except.ok (0, none) := by
  have h := resume_disabled_clears_checkpoints ⟨10, 2, 5, 1, 1000, none, false⟩
    (some [(1, 3), (2, 0)]) rfl
  exact ⟨rfl, h.1⟩

/-- Witness for C9: `max_steps = 2` with accumulation width 2 over four
batches: the loop exits at global step 2 with the cumulative batch
counter at 4, an exact multiple of the width. -/
theorem budget_exit_on_window_boundary_witness :
    Metrics.init.num_steps < 2 ∧
    2 ≤ Metrics.num_steps ⟨2, 1, 0, 4, 4, 4, 4, 4⟩ ∧
    Metrics.local_num_batches ⟨2, 1, 0, 4, 4, 4, 4, 4⟩ % 2 = 0 := by
  have h := budget_exit_on_window_boundary ⟨2, 2, 5, 1, 1000, none, false⟩ []
    [⟨1, 1, 1, 1⟩, ⟨1, 1, 1, 1⟩, ⟨1, 1, 1, 1⟩, ⟨1, 1, 1, 1⟩] 3 none Metrics.init
    ⟨⟨2, 1, 0, 4, 4, 4, 4, 4⟩,
      [Event.backward, Event.backward, Event.logMetrics, Event.optimizerStep,
        Event.schedulerStep, Event.zeroGrad, Event.backward, Event.backward,
        Event.logMetrics, Event.optimizerStep, Event.schedulerStep, Event.zeroGrad],
      [[⟨1, 1, 1, 1⟩, ⟨1, 1, 1, 1⟩, ⟨1, 1, 1, 1⟩, ⟨1, 1, 1, 1⟩]]⟩ (by decide) (by decide)
  exact ⟨by decide, h.1, h.2⟩

end AMPLIFY
